import Mathlib

/-!
Verification of the SEC data-fetch caching / rate-limiting / retry layer of
the TAI repository.

The embedded components, translated from the Python source shown in the
repository documentation (src/unnamed/part_001, lines 750-800):

* `rate_limit` decorator: a fixed-interval rate limiter around a wrapped
  operation, keeping `last_called` state.
* `SECDataCache`: an in-memory TTL cache with lazy eviction on read.
* `create_session_with_retries`: an HTTP session configured with a urllib3
  `Retry(total := 3, status_forcelist := [429, 500, 502, 503, 504],
  allowed_methods := [HEAD, GET, OPTIONS], backoff_factor := 1)` strategy.

Timestamps and durations are modelled as rationals; the wall clock and
`time.sleep` are made explicit, with `sleep d` advancing the clock by
exactly `d` (a real sleep lasts at least `d`; lower bounds proved in the
exact model also hold for any longer sleep).
-/

/-- Timestamps and durations (seconds), as read from `time.time()`. -/
abbrev Time := ℚ

/-! ## TTL cache: `SECDataCache`

Python source (part_001, lines 771-784):

```
class SECDataCache:
    def __init__(self, ttl: int = 3600):
        self.cache = \x7b\x7d
        self.ttl = ttl

    def get(self, key: str) -> Optional[Dict]:
        if key in self.cache:
            timestamp, data = self.cache[key]
            if time.time() - timestamp < self.ttl:
                return data
            else:
                del self.cache[key]  # Auto-cleanup expired items
        return None
```

The Python dict is modelled as an association list with unique keys;
`key in self.cache` / `self.cache[key]` is `List.lookup`, and
`del self.cache[key]` removes every binding of `key`.
-/

structure SECDataCache (α : Type) where
  cache : List (String × Time × α)
  ttl : Time
deriving DecidableEq

/-- `SECDataCache.__init__`: empty dict, given ttl (default 3600 seconds). -/
def SECDataCache.init (α : Type) (ttl : Time := 3600) : SECDataCache α :=
  ⟨[], ttl⟩

/-- `SECDataCache.get`, with the `time.time()` reading passed in as `now`.
Returns the Python return value together with the post-call cache state. -/
def SECDataCache.get (c : SECDataCache α) (now : Time) (key : String) :
    Option α × SECDataCache α :=
  match c.cache.lookup key with
  | some (timestamp, data) =>
    if now - timestamp < c.ttl then
      (some data, c)
    else
      (none, ⟨c.cache.filter (fun e => !(e.1 == key)), c.ttl⟩)
  | none => (none, c)

/-- Modelled from the spec: the cache write operation is not in the source
excerpt (only `__init__` and `get` of `SECDataCache` are shown).  Per the
spec, `put(key, value)` stores/overwrites the entry for `key` with
`stored_at = now`. -/
def SECDataCache.put (c : SECDataCache α) (now : Time) (key : String) (v : α) :
    SECDataCache α :=
  ⟨(key, now, v) :: c.cache.filter (fun e => !(e.1 == key)), c.ttl⟩

/-- Modelled from the spec: the fetch orchestrator itself is not in the
source excerpt.  Per the spec: compute the key, check the TTL cache via
`get`; on hit return immediately; on miss perform the network call (its
outcome is passed in as `net`); on success `put` the payload and return it;
on exhausted-retry failure propagate the failure and cache nothing. -/
def fetchOrchestrate (c : SECDataCache α) (now : Time) (key : String)
    (net : Except ε α) : Except ε α × SECDataCache α :=
  match (c.get now key).1 with
  | some v => (Except.ok v, (c.get now key).2)
  | none =>
    match net with
    | Except.ok payload => (Except.ok payload, ((c.get now key).2).put now key payload)
    | Except.error e => (Except.error e, (c.get now key).2)

/-! ## Retry-able transport: `create_session_with_retries`

Python source (part_001, lines 789-800):

```
def create_session_with_retries() -> requests.Session:
    session = requests.Session()
    retry_strategy = Retry(
        total=3,
        status_forcelist=[429, 500, 502, 503, 504],
        allowed_methods=["HEAD", "GET", "OPTIONS"],
        backoff_factor=1
    )
    adapter = HTTPAdapter(max_retries=retry_strategy)
    session.mount("http://", adapter)
    session.mount("https://", adapter)
    return session
```

The retry behaviour is urllib3's `Retry`/`HTTPConnectionPool.urlopen` loop,
embedded for responses without a Retry-After header:

* `is_retry(method, status)` holds when the method is in `allowed_methods`
  and the status is in `status_forcelist`;
* on a retry-able response, `total` is decremented; when it would drop
  below zero the request fails with `MaxRetryError` (raise_on_status is
  True by default), otherwise the pool sleeps `get_backoff_time()` and
  retries;
* `get_backoff_time` returns 0 while the consecutive-error history has
  length at most 1, and `backoff_factor * 2 ^ (history - 1)` afterwards
  (`backoff_max` = 120 is never reached with these parameters);
* a response whose status/method is not retry-able is returned to the
  caller as-is.
-/

structure RetryConfig where
  total : ℕ
  status_forcelist : List ℕ
  allowed_methods : List String
  backoff_factor : ℚ
deriving DecidableEq

/-- The `Retry` strategy constructed by `create_session_with_retries`. -/
def create_session_with_retries : RetryConfig :=
  { total := 3
    status_forcelist := [429, 500, 502, 503, 504]
    allowed_methods := ["HEAD", "GET", "OPTIONS"]
    backoff_factor := 1 }

/-- urllib3 `Retry._is_method_retryable`. -/
def RetryConfig.is_method_retryable (cfg : RetryConfig) (method : String) : Bool :=
  cfg.allowed_methods.contains method

/-- urllib3 `Retry.is_retry` for a response with no Retry-After header. -/
def RetryConfig.is_retry (cfg : RetryConfig) (method : String) (status : ℕ) : Bool :=
  cfg.is_method_retryable method && cfg.status_forcelist.contains status

/-- urllib3 `Retry.get_backoff_time`, `history` being the number of
consecutive previous failed attempts. -/
def RetryConfig.get_backoff_time (cfg : RetryConfig) (history : ℕ) : ℚ :=
  if history ≤ 1 then 0 else cfg.backoff_factor * 2 ^ (history - 1)

/-- Result of a request as seen by the session's caller. -/
inductive FetchOutcome where
  /-- A response was handed back to the caller (any status). -/
  | response (status : ℕ)
  /-- `MaxRetryError` was raised after exhausting `total`; carries the
  status of the last attempt. -/
  | maxRetryError (lastStatus : ℕ)
deriving DecidableEq

/-- Observable trace of one request through the retry loop: how many
attempts were issued, the backoff sleeps between them, and the outcome. -/
structure RetryTrace where
  attempts : ℕ
  sleeps : List ℚ
  outcome : FetchOutcome
deriving DecidableEq

/-- The urllib3 retry loop.  `transport n` is the status code the server
returns to attempt number `n` (1-indexed); `remaining` is the current
`total`; `attempt` is the number of the attempt about to be issued. -/
def retryLoop (cfg : RetryConfig) (method : String) (transport : ℕ → ℕ)
    (remaining attempt : ℕ) : RetryTrace :=
  let status := transport attempt
  if cfg.is_retry method status then
    match remaining with
    | 0 => ⟨attempt, [], FetchOutcome.maxRetryError status⟩
    | r + 1 =>
      let rest := retryLoop cfg method transport r (attempt + 1)
      ⟨rest.attempts, cfg.get_backoff_time attempt :: rest.sleeps, rest.outcome⟩
  else
    ⟨attempt, [], FetchOutcome.response status⟩

/-- One request issued through the session built by
`create_session_with_retries`. -/
def sessionFetch (method : String) (transport : ℕ → ℕ) : RetryTrace :=
  retryLoop create_session_with_retries method transport
    create_session_with_retries.total 1

/-! ## Rate limiter: `rate_limit`

Python source (part_001, lines 750-764):

```
def rate_limit(max_calls_per_second: int = DEFAULT_RATE_LIMIT):
    def decorator(func):
        last_called = [0.0]
        min_interval = 1.0 / max_calls_per_second

        @wraps(func)
        def wrapper(*args, **kwargs):
            elapsed = time.time() - last_called[0]
            left_to_wait = min_interval - elapsed
            if left_to_wait > 0:
                time.sleep(left_to_wait)
            result = func(*args, **kwargs)
            last_called[0] = time.time()
            return result
        return wrapper
    return decorator
```

One wrapper call is modelled with three explicit time parameters: `last`
(the current `last_called[0]`), `arrival` (the `time.time()` read at
entry) and `dur` (how long `func` runs, so the `time.time()` read after
`func` returns yields start-of-func + `dur`).  `func` itself is a Lean
function into `Except`, `Except.error` standing for a raised exception:
when `func` raises, the assignment `last_called[0] = time.time()` on the
line after the call never executes and the exception propagates. -/

/-- `min_interval = 1.0 / max_calls_per_second`. -/
def min_interval (max_calls_per_second : ℚ) : ℚ := 1 / max_calls_per_second

/-- Default `max_calls_per_second` (`DEFAULT_RATE_LIMIT`), 10 requests per
second per the documentation. -/
def DEFAULT_RATE_LIMIT : ℚ := 10

/-- The time at which `func` starts executing inside the wrapper: the
arrival time plus the `time.sleep(left_to_wait)` performed when
`left_to_wait > 0`. -/
def rlStart (minInt last arrival : Time) : Time :=
  if 0 < minInt - (arrival - last) then arrival + (minInt - (arrival - last))
  else arrival

/-- One call through the `rate_limit` wrapper: returns the wrapper's
result (or propagated exception) together with the new `last_called[0]`.
On success `last_called[0]` becomes the `time.time()` after `func`
returned; when `func` raises, the assignment is skipped. -/
def rate_limit_wrapper (minInt : Time) (f : α → Except ε β)
    (last arrival dur : Time) (x : α) : Except ε β × Time :=
  let start := rlStart minInt last arrival
  match f x with
  | Except.ok y => (Except.ok y, start + dur)
  | Except.error e => (Except.error e, last)

/-- A sequential run of successful invocations of one wrapped operation:
each element `(d, g)` of the list is one call, `d` the running time of
`func` and `g` the idle gap after this call returns before the next call
arrives (back-to-back runs are the special case `g = 0`).  `last` is the
current `last_called[0]` and `arrival` the `time.time()` read when the
present call enters the wrapper; on a normal return the wrapper sets
`last_called[0]` to the instant `func` returned, which is where the next
call's arrival gap is measured from.  Output: the list of `func` start
times and the final clock (the last call's return time; `last` when the
list is empty). -/
def rlRunSeq (minInt : Time) : Time → Time → List (Time × Time) → List Time × Time
  | last, _arrival, [] => ([], last)
  | last, arrival, (d, g) :: ps =>
    let s := rlStart minInt last arrival
    ((s :: (rlRunSeq minInt (s + d) (s + d + g) ps).1),
     (rlRunSeq minInt (s + d) (s + d + g) ps).2)

/-! ## Helper lemmas about the association-list dict -/

theorem lookup_filter_ne {α : Type} (l : List (String × Time × α)) {key k' : String}
    (h : k' ≠ key) :
    (l.filter (fun e => !(e.1 == key))).lookup k' = l.lookup k' := by
  induction l with
  | nil => rfl
  | cons e l ih =>
    obtain ⟨a, b⟩ := e
    by_cases he : a = key
    · subst he
      have hb : (k' == a) = false := beq_eq_false_iff_ne.mpr h
      simp [List.filter_cons, List.lookup, hb, ih]
    · by_cases hk : k' = a
      · subst hk
        simp [List.filter_cons, List.lookup, he]
      · have hb : (k' == a) = false := beq_eq_false_iff_ne.mpr hk
        simp [List.filter_cons, List.lookup, he, hb, ih]

theorem lookup_filter_self {α : Type} (l : List (String × Time × α)) (key : String) :
    (l.filter (fun e => !(e.1 == key))).lookup key = none := by
  induction l with
  | nil => rfl
  | cons e l ih =>
    obtain ⟨a, b⟩ := e
    by_cases he : a = key
    · simp [List.filter_cons, he, ih]
    · have hb : (key == a) = false := beq_eq_false_iff_ne.mpr (Ne.symm he)
      simp [List.filter_cons, List.lookup, he, hb, ih]

/-- On a read that returns absent, the post-read cache holds no entry for
the key: either there was none, or the expired one was just evicted. -/
theorem get_miss_lookup_none {α : Type} (c : SECDataCache α) (now : Time)
    (key : String) (h : (c.get now key).1 = none) :
    ((c.get now key).2).cache.lookup key = none := by
  unfold SECDataCache.get at *
  cases hl : c.cache.lookup key with
  | none => simp [hl]
  | some p =>
    obtain ⟨ts, w⟩ := p
    by_cases hfresh : now - ts < c.ttl
    · simp [hl, hfresh] at h
    · simpa [hl, hfresh] using lookup_filter_self c.cache key

/-! ## Claims about the TTL cache -/

/-- C4: `SECDataCache.get` returns the cached value iff an entry exists for
the key and `now - stored_at < ttl`; when the entry exists but is expired
(`now - stored_at >= ttl`) the read returns absent and removes the stale
entry (lazy eviction), so an expired entry is never returned; an absent key
just returns absent. -/
theorem cache_get_fresh_iff {α : Type} (c : SECDataCache α) (now : Time)
    (key : String) (v : α) :
    ((c.get now key).1 = some v ↔
      ∃ ts, c.cache.lookup key = some (ts, v) ∧ now - ts < c.ttl) ∧
    (∀ ts w, c.cache.lookup key = some (ts, w) → c.ttl ≤ now - ts →
      (c.get now key).1 = none ∧ ((c.get now key).2).cache.lookup key = none) ∧
    (c.cache.lookup key = none → c.get now key = (none, c)) := by
  cases hl : c.cache.lookup key with
  | none =>
    refine ⟨?_, ?_, ?_⟩ <;> simp [SECDataCache.get, hl]
  | some p =>
    obtain ⟨ts, w⟩ := p
    by_cases hfresh : now - ts < c.ttl
    · refine ⟨?_, ?_, ?_⟩
      · simp only [SECDataCache.get, hl, if_pos hfresh]
        constructor
        · intro h
          injection h with h
          subst h
          exact ⟨ts, rfl, hfresh⟩
        · rintro ⟨ts', heq, -⟩
          injection heq with heq
          rw [Prod.mk.injEq] at heq
          exact congrArg some heq.2
      · intro ts' w' heq hle
        injection heq with heq
        rw [Prod.mk.injEq] at heq
        obtain ⟨rfl, rfl⟩ := heq
        exact absurd hfresh (not_lt.mpr hle)
      · intro hnone
        simp at hnone
    · refine ⟨?_, ?_, ?_⟩
      · simp [SECDataCache.get, hl, hfresh]
        intro _
        exact not_lt.mp hfresh
      · intro ts' w' heq hle
        injection heq with heq
        rw [Prod.mk.injEq] at heq
        obtain ⟨rfl, rfl⟩ := heq
        refine ⟨by simp [SECDataCache.get, hl, hfresh], ?_⟩
        simp [SECDataCache.get, hl, hfresh, lookup_filter_self]
      · intro hnone
        simp at hnone

/-- C4 witness: on a concrete cache with ttl 10 and an entry stored at 0,
a read at time 5 returns the value and a read at time 20 returns absent
and evicts. -/
theorem cache_get_fresh_iff_witness :
    ((SECDataCache.mk [("k", (0:ℚ), (42:ℕ))] 10).get 5 "k").1 = some 42 ∧
    ((SECDataCache.mk [("k", (0:ℚ), (42:ℕ))] 10).get 20 "k").1 = none ∧
    (((SECDataCache.mk [("k", (0:ℚ), (42:ℕ))] 10).get 20 "k").2).cache.lookup "k" =
      none :=
  ⟨(cache_get_fresh_iff (SECDataCache.mk [("k", (0:ℚ), (42:ℕ))] 10) 5 "k" 42).1.mpr
      ⟨0, rfl, by norm_num⟩,
   ((cache_get_fresh_iff (SECDataCache.mk [("k", (0:ℚ), (42:ℕ))] 10) 20 "k" 42).2.1
      0 42 rfl (by norm_num)).1,
   ((cache_get_fresh_iff (SECDataCache.mk [("k", (0:ℚ), (42:ℕ))] 10) 20 "k" 42).2.1
      0 42 rfl (by norm_num)).2⟩

/-- C5: `put` stores/overwrites the entry for the key with
`stored_at = now`; a `put` followed immediately by `get` returns the value
(the ttl being positive), and once `ttl` seconds have elapsed since the put
`get` returns absent. -/
theorem cache_put_get_ttl {α : Type} (c : SECDataCache α) (now now' : Time)
    (key : String) (v : α) :
    (c.put now key v).cache.lookup key = some (now, v) ∧
    (0 < c.ttl → ((c.put now key v).get now key).1 = some v) ∧
    (c.ttl ≤ now' - now → ((c.put now key v).get now' key).1 = none) := by
  have hput : (c.put now key v).cache.lookup key = some (now, v) := by
    simp [SECDataCache.put, List.lookup]
  refine ⟨hput, ?_, ?_⟩
  · intro httl
    simp [SECDataCache.get, SECDataCache.put, List.lookup, sub_self, httl]
  · intro hle
    have hnotlt : ¬ (now' - now < c.ttl) := not_lt.mpr hle
    simp [SECDataCache.get, SECDataCache.put, List.lookup, hnotlt]

/-- C5 witness: with ttl 10, `put` at time 0 then `get` at time 0 returns
the value, and `get` at time 12 returns absent. -/
theorem cache_put_get_ttl_witness :
    (0:ℚ) < 10 ∧ (10:ℚ) ≤ 12 - 0 ∧
    (((SECDataCache.init ℕ 10).put 0 "k" 7).get 0 "k").1 = some 7 ∧
    (((SECDataCache.init ℕ 10).put 0 "k" 7).get 12 "k").1 = none :=
  ⟨by norm_num, by norm_num,
   (cache_put_get_ttl (SECDataCache.init ℕ 10) 0 12 "k" 7).2.1
     (by norm_num [SECDataCache.init]),
   (cache_put_get_ttl (SECDataCache.init ℕ 10) 0 12 "k" 7).2.2
     (by norm_num [SECDataCache.init])⟩

/-- C10: a cache read never disturbs unrelated state: entries for keys
other than the one read are unchanged; a fresh hit or an absent key leaves
the entire mapping unchanged; and after an eviction the key is absent, so
an immediately repeated `get` returns absent without further
modification. -/
theorem cache_get_frame {α : Type} (c : SECDataCache α) (now : Time)
    (key k' : String) (v : α) :
    (k' ≠ key → ((c.get now key).2).cache.lookup k' = c.cache.lookup k') ∧
    ((c.get now key).1 = some v → (c.get now key).2 = c) ∧
    (c.cache.lookup key = none → (c.get now key).2 = c) ∧
    ((c.get now key).1 = none →
      ((c.get now key).2).get now key = (none, (c.get now key).2)) := by
  cases hl : c.cache.lookup key with
  | none =>
    refine ⟨?_, ?_, ?_, ?_⟩ <;> simp [SECDataCache.get, hl]
  | some p =>
    obtain ⟨ts, w⟩ := p
    by_cases hfresh : now - ts < c.ttl
    · refine ⟨?_, ?_, ?_, ?_⟩
      · intro _
        simp [SECDataCache.get, hl, hfresh]
      · intro _
        simp [SECDataCache.get, hl, hfresh]
      · intro h
        simp at h
      · intro h
        simp [SECDataCache.get, hl, hfresh] at h
    · refine ⟨?_, ?_, ?_, ?_⟩
      · intro hk
        simp [SECDataCache.get, hl, hfresh, lookup_filter_ne _ hk]
      · intro h
        simp [SECDataCache.get, hl, hfresh] at h
      · intro h
        simp at h
      · intro _
        simp [SECDataCache.get, hl, hfresh, lookup_filter_self]

/-- C10 witness: evicting the expired entry for one key preserves the
entry stored under another key. -/
theorem cache_get_frame_witness :
    "b" ≠ "a" ∧
    (((SECDataCache.mk [("a", (0:ℚ), (1:ℕ)), ("b", 0, 2)] 1).get 5 "a").2).cache.lookup
        "b" =
      (SECDataCache.mk [("a", (0:ℚ), (1:ℕ)), ("b", 0, 2)] 1).cache.lookup "b" :=
  ⟨by decide,
   (cache_get_frame (SECDataCache.mk [("a", (0:ℚ), (1:ℕ)), ("b", 0, 2)] 1) 5 "a" "b"
      1).1 (by decide)⟩

/-! ## Claims about the fetch orchestrator -/

/-- C8 counterexample: with an expired entry for the key in the cache, a
fetch that fails after retry exhaustion does change the cache state: the
cache read performed on the way evicts the stale entry, so the post-fetch
cache differs from the pre-fetch cache even though nothing was stored. -/
theorem failed_fetch_cache_changed_counterexample :
    (fetchOrchestrate (SECDataCache.mk [("k", (0:ℚ), (1:ℕ))] 1) 5 "k"
        (Except.error (0:ℕ))).2 ≠ SECDataCache.mk [("k", (0:ℚ), (1:ℕ))] 1 := by
  have hget : (SECDataCache.mk [("k", (0:ℚ), (1:ℕ))] 1).get 5 "k" =
      (none, SECDataCache.mk [] 1) := by
    norm_num [SECDataCache.get, List.lookup, List.filter_cons]
  have hfetch : (fetchOrchestrate (SECDataCache.mk [("k", (0:ℚ), (1:ℕ))] 1) 5 "k"
      (Except.error (0:ℕ))).2 = SECDataCache.mk [] 1 := by
    simp [fetchOrchestrate, hget]
  rw [hfetch]
  intro h
  injection h with h1 h2
  simp at h1

/-- C8 (amended): a fetch that fails after retry exhaustion propagates the
failure and stores nothing: afterwards the key is absent from the cache,
and the post-fetch cache is exactly the post-read state (which can differ
from the pre-fetch state only by the read's lazy eviction of an expired
entry for this key); a subsequent successful fetch for the same key is not
blocked by any poisoned entry: it returns the fresh payload and caches
it. -/
theorem failed_fetch_no_poison {α ε : Type} (c : SECDataCache α)
    (now now' : Time) (key : String) (e : ε) (v : α) :
    ((c.get now key).1 = none →
      fetchOrchestrate c now key (Except.error e) =
        (Except.error e, (c.get now key).2) ∧
      ((c.get now key).2).cache.lookup key = none) ∧
    (∀ c' : SECDataCache α, c'.cache.lookup key = none → 0 < c'.ttl →
      fetchOrchestrate c' now' key (Except.ok v : Except ε α) =
        (Except.ok v, c'.put now' key v) ∧
      ((c'.put now' key v).get now' key).1 = some v) := by
  constructor
  · intro h
    refine ⟨?_, get_miss_lookup_none c now key h⟩
    unfold fetchOrchestrate
    rw [h]
  · intro c' hnone httl
    have hmiss : c'.get now' key = (none, c') := by
      simp [SECDataCache.get, hnone]
    constructor
    · unfold fetchOrchestrate
      rw [hmiss]
    · simp [SECDataCache.get, SECDataCache.put, List.lookup, sub_self, httl]

/-- C8 witness: on an empty cache with ttl 10, a failed fetch at time 0
propagates the error and stores nothing, and a later successful fetch at
time 1 returns and caches the fresh payload. -/
theorem failed_fetch_no_poison_witness :
    ((SECDataCache.init ℕ 10).get 0 "k").1 = none ∧
    (SECDataCache.init ℕ 10).cache.lookup "k" = none ∧ (0:ℚ) < 10 ∧
    (fetchOrchestrate (SECDataCache.init ℕ 10) 0 "k" (Except.error (7:ℕ)) =
      (Except.error 7, ((SECDataCache.init ℕ 10).get 0 "k").2) ∧
     (((SECDataCache.init ℕ 10).get 0 "k").2).cache.lookup "k" = none) ∧
    (fetchOrchestrate (SECDataCache.init ℕ 10) 1 "k" (Except.ok (5:ℕ) : Except ℕ ℕ) =
      (Except.ok 5, (SECDataCache.init ℕ 10).put 1 "k" 5) ∧
     (((SECDataCache.init ℕ 10).put 1 "k" 5).get 1 "k").1 = some 5) :=
  ⟨rfl, rfl, by norm_num,
   (failed_fetch_no_poison (SECDataCache.init ℕ 10) 0 1 "k" (7:ℕ) (5:ℕ)).1 rfl,
   (failed_fetch_no_poison (SECDataCache.init ℕ 10) 0 1 "k" (7:ℕ) (5:ℕ)).2
     (SECDataCache.init ℕ 10) rfl (by norm_num [SECDataCache.init])⟩

/-! ## Claims about the retry-able transport -/

/-- When every attempt draws a retry-able response, the loop issues the
current attempt plus exactly `remaining` further attempts and then raises
`MaxRetryError` carrying the last response. -/
theorem retryLoop_always_retry (cfg : RetryConfig) (method : String)
    (transport : ℕ → ℕ)
    (h : ∀ i, cfg.is_retry method (transport i) = true) :
    ∀ remaining attempt,
      (retryLoop cfg method transport remaining attempt).attempts =
        attempt + remaining ∧
      (retryLoop cfg method transport remaining attempt).outcome =
        FetchOutcome.maxRetryError (transport (attempt + remaining)) := by
  intro remaining
  induction remaining with
  | zero =>
    intro attempt
    simp [retryLoop, h attempt]
  | succ r ih =>
    intro attempt
    have hrec := ih (attempt + 1)
    have harith : attempt + 1 + r = attempt + (r + 1) := by omega
    rw [harith] at hrec
    simp [retryLoop, h attempt, hrec.1, hrec.2]

/-- C1 counterexample: against a transport that always returns 503, the
session performs 4 attempts, not the `max_attempts = 3` the claim states
(`Retry(total := 3)` is a budget of 3 retries on top of the first
attempt). -/
theorem session_attempts_counterexample :
    (sessionFetch "GET" (fun _ => 503)).attempts = 4 ∧
    (sessionFetch "GET" (fun _ => 503)).attempts ≠ 3 := by
  decide

/-- C1 (amended): for a transport whose every attempt returns a status in
the forcelist (e.g. always 503), a GET through the session performs exactly
`total + 1 = 4` attempts (the first attempt plus `total = 3` retries) and
then surfaces the last response to the caller as a `MaxRetryError` failure -
never more attempts, never fewer, and the failure is not swallowed. -/
theorem retry_exhaustion_attempts (transport : ℕ → ℕ)
    (h : ∀ i, transport i ∈ create_session_with_retries.status_forcelist) :
    (sessionFetch "GET" transport).attempts =
      create_session_with_retries.total + 1 ∧
    (sessionFetch "GET" transport).outcome =
      FetchOutcome.maxRetryError
        (transport (create_session_with_retries.total + 1)) := by
  have hr : ∀ i, create_session_with_retries.is_retry "GET" (transport i) = true := by
    intro i
    simp [RetryConfig.is_retry, RetryConfig.is_method_retryable,
      create_session_with_retries]
    simpa [create_session_with_retries] using h i
  have hthis := retryLoop_always_retry create_session_with_retries "GET" transport hr
    create_session_with_retries.total 1
  have hcomm : 1 + create_session_with_retries.total =
      create_session_with_retries.total + 1 := Nat.add_comm 1 _
  rw [sessionFetch]
  exact ⟨hthis.1.trans hcomm, hthis.2.trans (by rw [hcomm])⟩

/-- C1 witness: the always-503 transport satisfies the forcelist hypothesis
and exhibits 4 attempts ending in `MaxRetryError 503`. -/
theorem retry_exhaustion_attempts_witness :
    (∀ i : ℕ, (fun _ : ℕ => 503) i ∈ create_session_with_retries.status_forcelist) ∧
    (sessionFetch "GET" (fun _ => 503)).attempts =
      create_session_with_retries.total + 1 ∧
    (sessionFetch "GET" (fun _ => 503)).outcome =
      FetchOutcome.maxRetryError
        ((fun _ : ℕ => 503) (create_session_with_retries.total + 1)) :=
  have hmem : ∀ i : ℕ,
      (fun _ : ℕ => 503) i ∈ create_session_with_retries.status_forcelist :=
    fun _ => by simp [create_session_with_retries]
  ⟨hmem, retry_exhaustion_attempts (fun _ => 503) hmem⟩

/-- C6 counterexample: with the transport returning 429 on the first two
attempts and 200 on the third, the backoff sleeps are `[0, 2]` - the wait
after failed attempt 1 is 0, not `backoff_factor * 2 ^ 0` - so the total
elapsed backoff is 2, strictly less than the `3 * backoff_base` the claim
states. -/
theorem backoff_counterexample :
    (sessionFetch "GET" (fun i => if i ≤ 2 then 429 else 200)).sleeps = [0, 2] ∧
    ((sessionFetch "GET" (fun i => if i ≤ 2 then 429 else 200)).sleeps.sum <
      3 * create_session_with_retries.backoff_factor) := by
  have hs : (sessionFetch "GET" (fun i => if i ≤ 2 then 429 else 200)).sleeps =
      [0, 2] := by
    norm_num [sessionFetch, retryLoop, create_session_with_retries,
      RetryConfig.is_retry, RetryConfig.is_method_retryable,
      RetryConfig.get_backoff_time]
  refine ⟨hs, ?_⟩
  rw [hs]
  norm_num [create_session_with_retries]

/-- C6 (amended): the wait before the first retry is 0 (urllib3 backs off
only once the consecutive-error history exceeds one entry); the wait after
failed attempt `n ≥ 2` is `backoff_factor * 2 ^ (n - 1)`.  Hence when the
transport returns 429 on the first two attempts and 200 on the third, the
fetch succeeds on the third attempt and the total elapsed backoff is
exactly `0 + 2 * backoff_factor = 2` times the base, not 3. -/
theorem backoff_schedule_scenario (transport : ℕ → ℕ)
    (h1 : transport 1 = 429) (h2 : transport 2 = 429) (h3 : transport 3 = 200) :
    (sessionFetch "GET" transport).sleeps =
      [RetryConfig.get_backoff_time create_session_with_retries 1,
       RetryConfig.get_backoff_time create_session_with_retries 2] ∧
    RetryConfig.get_backoff_time create_session_with_retries 1 = 0 ∧
    RetryConfig.get_backoff_time create_session_with_retries 2 =
      create_session_with_retries.backoff_factor * 2 ∧
    (sessionFetch "GET" transport).attempts = 3 ∧
    (sessionFetch "GET" transport).outcome = FetchOutcome.response 200 ∧
    (sessionFetch "GET" transport).sleeps.sum =
      2 * create_session_with_retries.backoff_factor := by
  have htrace : sessionFetch "GET" transport =
      ⟨3, [RetryConfig.get_backoff_time create_session_with_retries 1,
           RetryConfig.get_backoff_time create_session_with_retries 2],
       FetchOutcome.response 200⟩ := by
    simp [sessionFetch, retryLoop, h1, h2, h3, create_session_with_retries,
      RetryConfig.is_retry, RetryConfig.is_method_retryable]
  refine ⟨by rw [htrace], by norm_num [RetryConfig.get_backoff_time],
    by norm_num [RetryConfig.get_backoff_time, create_session_with_retries], ?_, ?_, ?_⟩
  · rw [htrace]
  · rw [htrace]
  · rw [htrace]
    norm_num [RetryConfig.get_backoff_time, create_session_with_retries]

/-- C6 witness: the concrete 429/429/200 transport satisfies the scenario
hypotheses. -/
theorem backoff_schedule_scenario_witness :
    (fun i : ℕ => if i ≤ 2 then 429 else 200) 1 = 429 ∧
    (fun i : ℕ => if i ≤ 2 then 429 else 200) 2 = 429 ∧
    (fun i : ℕ => if i ≤ 2 then 429 else 200) 3 = 200 ∧
    ((sessionFetch "GET" (fun i => if i ≤ 2 then 429 else 200)).attempts = 3 ∧
     (sessionFetch "GET" (fun i => if i ≤ 2 then 429 else 200)).outcome =
       FetchOutcome.response 200) :=
  have hsc := backoff_schedule_scenario (fun i => if i ≤ 2 then 429 else 200)
    (by norm_num) (by norm_num) (by norm_num)
  ⟨by norm_num, by norm_num, by norm_num, hsc.2.2.2.1, hsc.2.2.2.2.1⟩

/-- C7: only idempotent read-style methods are eligible for automatic
retry: a POST is returned after exactly one attempt, never silently
retried, whatever its response status; and on a retryable method a 4xx
status other than 429 is not in the forcelist, so it propagates to the
caller immediately after a single attempt with no backoff sleeps. -/
theorem retry_method_status_restriction (transport : ℕ → ℕ) (s : ℕ) :
    ((sessionFetch "POST" transport).attempts = 1 ∧
     (sessionFetch "POST" transport).outcome = FetchOutcome.response (transport 1) ∧
     (sessionFetch "POST" transport).sleeps = []) ∧
    (transport 1 = s → 400 ≤ s → s < 500 → s ≠ 429 →
      (sessionFetch "GET" transport).attempts = 1 ∧
      (sessionFetch "GET" transport).outcome = FetchOutcome.response s ∧
      (sessionFetch "GET" transport).sleeps = []) := by
  constructor
  · have hm : create_session_with_retries.is_retry "POST" (transport 1) = false := by
      simp [RetryConfig.is_retry, RetryConfig.is_method_retryable,
        create_session_with_retries]
    refine ⟨?_, ?_, ?_⟩ <;> simp [sessionFetch, retryLoop, hm]
  · intro hs h400 h500 h429
    have hnotmem : s ∉ create_session_with_retries.status_forcelist := by
      simp [create_session_with_retries]
      omega
    have hm : create_session_with_retries.is_retry "GET" s = false := by
      simp [RetryConfig.is_retry, RetryConfig.is_method_retryable,
        create_session_with_retries]
      omega
    refine ⟨?_, ?_, ?_⟩ <;> simp [sessionFetch, retryLoop, hs, hm]

/-- C7 witness: a POST against an always-503 transport is not retried, and
a GET that draws a 404 propagates after one attempt. -/
theorem retry_method_status_restriction_witness :
    ((sessionFetch "POST" (fun _ => 503)).attempts = 1 ∧
     (sessionFetch "POST" (fun _ => 503)).outcome =
       FetchOutcome.response ((fun _ : ℕ => 503) 1) ∧
     (sessionFetch "POST" (fun _ => 503)).sleeps = []) ∧
    ((fun _ : ℕ => 404) 1 = 404 ∧ 400 ≤ 404 ∧ 404 < 500 ∧ 404 ≠ 429) ∧
    ((sessionFetch "GET" (fun _ => 404)).attempts = 1 ∧
     (sessionFetch "GET" (fun _ => 404)).outcome = FetchOutcome.response 404 ∧
     (sessionFetch "GET" (fun _ => 404)).sleeps = []) :=
  ⟨(retry_method_status_restriction (fun _ => 503) 404).1,
   ⟨rfl, by norm_num, by norm_num, by norm_num⟩,
   (retry_method_status_restriction (fun _ => 404) 404).2 rfl (by norm_num)
     (by norm_num) (by norm_num)⟩

/-! ## Claims about the rate limiter -/

/-- C9: on the success path the `rate_limit` wrapper is observationally
transparent: apart from the delay, it returns exactly the value the
wrapped function produced on the argument it was given. -/
theorem rate_limit_transparent_success {α ε β : Type} (f : α → Except ε β)
    (minInt last arrival dur : Time) (x : α) (y : β)
    (h : f x = Except.ok y) :
    (rate_limit_wrapper minInt f last arrival dur x).1 = Except.ok y := by
  simp [rate_limit_wrapper, h]

/-- C9 witness: wrapping the successor function, a call on 4 returns
exactly `ok 5`. -/
theorem rate_limit_transparent_success_witness :
    ((fun n : ℕ => (Except.ok (n + 1) : Except ℕ ℕ)) 4 = Except.ok 5) ∧
    (rate_limit_wrapper (min_interval 10)
        (fun n : ℕ => (Except.ok (n + 1) : Except ℕ ℕ)) 0 100 1 4).1 =
      Except.ok 5 :=
  ⟨rfl, rate_limit_transparent_success
    (fun n : ℕ => (Except.ok (n + 1) : Except ℕ ℕ)) (min_interval 10) 0 100 1 4 5
    rfl⟩

/-- C2 counterexample: with `min_interval = 1`, previous `last_called = 0`
and a failing call arriving at time 10 whose function runs for 1 second
(so the attempt completes at `rlStart 1 0 10 + 1 = 11`), the wrapper
leaves `last_called` at 0, not at the time of the attempt. -/
theorem rate_limit_raise_counterexample :
    (rate_limit_wrapper 1 (fun _ : ℕ => (Except.error 0 : Except ℕ ℕ)) 0 10 1 5).2 =
      0 ∧
    rlStart 1 0 10 + 1 = 11 ∧ (0 : ℚ) ≠ 11 := by
  refine ⟨rfl, ?_, ?_⟩ <;> norm_num [rlStart]

/-- C2 (amended): when the wrapped function raises, the assignment
`last_called[0] = time.time()` on the line after the call never executes:
the rate-limiter state keeps its previous value, so a failing call does
NOT consume its rate-limit slot and an immediately following call is
throttled only relative to the last successful call. -/
theorem rate_limit_raise_keeps_last {α ε β : Type} (f : α → Except ε β)
    (minInt last arrival dur : Time) (x : α) (e : ε)
    (h : f x = Except.error e) :
    (rate_limit_wrapper minInt f last arrival dur x).2 = last := by
  simp [rate_limit_wrapper, h]

/-- C2 (amended) witness: a concrete raising call leaves `last_called`
at its previous value 3. -/
theorem rate_limit_raise_keeps_last_witness :
    ((fun _ : ℕ => (Except.error 9 : Except ℕ ℕ)) 5 = Except.error 9) ∧
    (rate_limit_wrapper 1 (fun _ : ℕ => (Except.error 9 : Except ℕ ℕ)) 3 10 1 5).2 =
      3 :=
  ⟨rfl, rate_limit_raise_keeps_last
    (fun _ : ℕ => (Except.error 9 : Except ℕ ℕ)) 1 3 10 1 5 9 rfl⟩

/-- C3 counterexample: with `min_interval = 1` and initial
`last_called = 0`, a call arriving at time 10 starts immediately
(`rlStart 1 0 10 = 10`); its function raises, so the wrapper leaves
`last_called` at 0; a second call arriving at `10 + 1/4` (the instant the
first returned) again sees a large elapsed time and starts at `10 + 1/4`.
Two invocations of the same wrapped operation started `1/4 < min_interval`
apart. -/
theorem rate_limit_spacing_counterexample :
    rlStart 1 0 10 = 10 ∧
    (rate_limit_wrapper 1 (fun _ : ℕ => (Except.error 0 : Except ℕ ℕ)) 0 10
        (1/4) 5).2 = 0 ∧
    rlStart 1 0 (10 + 1/4) = 10 + 1/4 ∧
    (10 + 1/4) - rlStart 1 0 10 < (1 : ℚ) := by
  refine ⟨?_, rfl, ?_, ?_⟩ <;> norm_num [rlStart]

/-- The wrapped function never starts before the wrapper was entered. -/
theorem rlStart_ge_arrival (minInt last arrival : Time) :
    arrival ≤ rlStart minInt last arrival := by
  unfold rlStart
  split <;> linarith

/-- Whatever the arrival time, the wrapped function never starts less than
one minimum interval after the recorded `last_called`: either the wrapper
sleeps exactly up to `last + min_interval`, or the elapsed time already
reached the interval and the call proceeds at its arrival time. -/
theorem rlStart_ge_last (minInt last arrival : Time) :
    last + minInt ≤ rlStart minInt last arrival := by
  unfold rlStart
  split <;> linarith

/-- The first start time of a nonempty sequential run. -/
theorem rlRunSeq_starts_head (minInt l a d g : Time) (ps : List (Time × Time)) :
    ((rlRunSeq minInt l a ((d, g) :: ps)).1).head? =
      some (rlStart minInt l a) := by
  simp [rlRunSeq]

/-- Consecutive start times in a sequential run of successful calls are at
least one minimum interval apart, whatever the idle gaps between calls. -/
theorem rlRunSeq_chain (minInt : Time) :
    ∀ (ps : List (Time × Time)) (l a : Time), (∀ p ∈ ps, 0 ≤ p.1) →
      List.Chain' (fun x y => x + minInt ≤ y) (rlRunSeq minInt l a ps).1 := by
  intro ps
  induction ps with
  | nil =>
    intro l a _
    simp [rlRunSeq]
  | cons p ps ih =>
    intro l a hd
    obtain ⟨d, g⟩ := p
    have hrun : (rlRunSeq minInt l a ((d, g) :: ps)).1 =
        rlStart minInt l a ::
          (rlRunSeq minInt (rlStart minInt l a + d)
            (rlStart minInt l a + d + g) ps).1 := by
      simp [rlRunSeq]
    rw [hrun, List.chain'_cons']
    refine ⟨?_, ih _ _ (fun x hx => hd x (List.mem_cons_of_mem (d, g) hx))⟩
    intro b hb
    cases ps with
    | nil =>
      simp [rlRunSeq] at hb
    | cons q qs =>
      obtain ⟨d2, g2⟩ := q
      rw [rlRunSeq_starts_head] at hb
      have hd0 : 0 ≤ d := hd (d, g) (List.mem_cons_self (d, g) ((d2, g2) :: qs))
      have hnext := rlStart_ge_last minInt (rlStart minInt l a + d)
        (rlStart minInt l a + d + g)
      simp at hb
      subst hb
      linarith

/-- The last call of a sequential run returns no earlier than the first
call's start time plus one minimum interval per further call. -/
theorem rlRunSeq_final (minInt : Time) :
    ∀ (ps : List (Time × Time)) (l a : Time), (∀ p ∈ ps, 0 ≤ p.1) → ps ≠ [] →
      rlStart minInt l a + ((ps.length - 1 : ℕ) : ℚ) * minInt ≤
        (rlRunSeq minInt l a ps).2 := by
  intro ps
  induction ps with
  | nil =>
    intro l a _ h
    exact absurd rfl h
  | cons p ps ih =>
    intro l a hd _
    obtain ⟨d, g⟩ := p
    have hd0 : 0 ≤ d := hd (d, g) (List.mem_cons_self (d, g) ps)
    cases ps with
    | nil =>
      simp [rlRunSeq]
      linarith
    | cons q qs =>
      have htail := ih (rlStart minInt l a + d) (rlStart minInt l a + d + g)
        (fun x hx => hd x (List.mem_cons_of_mem (d, g) hx)) (by simp)
      have hstart := rlStart_ge_last minInt (rlStart minInt l a + d)
        (rlStart minInt l a + d + g)
      have hrun : (rlRunSeq minInt l a ((d, g) :: q :: qs)).2 =
          (rlRunSeq minInt (rlStart minInt l a + d)
            (rlStart minInt l a + d + g) (q :: qs)).2 := by
        simp [rlRunSeq]
      rw [hrun]
      have hlen1 : ((((d, g) :: q :: qs).length - 1 : ℕ) : ℚ) * minInt =
          ((qs.length : ℚ)) * minInt + minInt := by
        push_cast [List.length_cons]
        ring
      have hlen2 : (((q :: qs).length - 1 : ℕ) : ℚ) = (qs.length : ℚ) := by
        push_cast [List.length_cons]
        ring
      rw [hlen2] at htail
      rw [hlen1]
      linarith

/-- C3 (amended): in every sequence of invocations of the same wrapped
operation in which each call returns normally - call `i + 1` arriving an
arbitrary nonnegative gap after call `i` returned - the rate limiter never
lets two invocations start closer together than
`min_interval = 1 / max_calls_per_second` (on each invocation it computes
`elapsed = now - last_invocation` and, when `elapsed < min_interval`,
blocks for `min_interval - elapsed` before proceeding), and `M` such
invocations with `max_calls_per_second = N` take at least `(M - 1) / N`
seconds end-to-end from the first arrival.  In particular this covers the
back-to-back case (all gaps zero).  (When a call raises, `last_called` is
not updated and the spacing guarantee can be violated - see the
counterexample.) -/
theorem rate_limit_min_spacing (N l0 t0 : Time) (calls : List (Time × Time))
    (hN : 0 < N) (hc : ∀ p ∈ calls, 0 ≤ p.1 ∧ 0 ≤ p.2) (hne : calls ≠ []) :
    List.Chain' (fun x y => x + min_interval N ≤ y)
      (rlRunSeq (min_interval N) l0 t0 calls).1 ∧
    t0 + ((calls.length - 1 : ℕ) : ℚ) * min_interval N ≤
      (rlRunSeq (min_interval N) l0 t0 calls).2 := by
  have hdur : ∀ p ∈ calls, 0 ≤ p.1 := fun p hp => (hc p hp).1
  refine ⟨rlRunSeq_chain (min_interval N) calls l0 t0 hdur, ?_⟩
  have hfin := rlRunSeq_final (min_interval N) calls l0 t0 hdur hne
  have harr := rlStart_ge_arrival (min_interval N) l0 t0
  linarith

/-- C3 witness: two calls per second; three successful instantaneous
calls, the second arriving back-to-back and the third after an extra
2-second idle gap. -/
theorem rate_limit_min_spacing_witness :
    (0:ℚ) < 2 ∧
    (∀ p ∈ [((0:ℚ), (0:ℚ)), (0, 2), (0, 0)], 0 ≤ p.1 ∧ 0 ≤ p.2) ∧
    [((0:ℚ), (0:ℚ)), (0, 2), (0, 0)] ≠ [] ∧
    (List.Chain' (fun x y => x + min_interval 2 ≤ y)
      (rlRunSeq (min_interval 2) 0 0 [((0:ℚ), (0:ℚ)), (0, 2), (0, 0)]).1 ∧
    (0:ℚ) + (([((0:ℚ), (0:ℚ)), (0, 2), (0, 0)].length - 1 : ℕ) : ℚ) *
        min_interval 2 ≤
      (rlRunSeq (min_interval 2) 0 0 [((0:ℚ), (0:ℚ)), (0, 2), (0, 0)]).2) :=
  have h1 : (0:ℚ) < 2 := by norm_num
  have h2 : ∀ p ∈ [((0:ℚ), (0:ℚ)), (0, 2), (0, 0)], 0 ≤ p.1 ∧ 0 ≤ p.2 := by
    intro p hp
    simp at hp
    rcases hp with rfl | rfl | rfl <;> norm_num
  have h3 : [((0:ℚ), (0:ℚ)), (0, 2), (0, 0)] ≠ [] := by simp
  ⟨h1, h2, h3,
   rate_limit_min_spacing 2 0 0 [((0:ℚ), (0:ℚ)), (0, 2), (0, 0)] h1 h2 h3⟩
